import Mathlib

/-! Verification development for flask-idempotent2 (version 0.0.3).

The file shallowly embeds the functions of src/flask_idempotent2.py that the
claims concern: the keyfunc generated by gen_keyfunc, the redis-backed cache
read and write paths of the Idempotent class (get_cached_response,
set_response_cache, dumps_response_and_changed_instances, format_redis_key,
wrap_view_func and its wrapped_view_function, auto_register) and the
sqlalchemy after-commit hook record_committed_changes. Stateful redis calls
become explicit values over a store model together with a trace of effects;
Python exceptions become an explicit error result. All definitions are
executable.
-/

namespace FlaskIdempotent2

/-! Part 1: character-level string comparison, matching CPython string
comparison by code points. Defined from scratch so that it reduces in the
kernel (the library String order does not). -/

/-- Lexicographic comparison of character lists by code point; decides
whether the first list is less than or equal to the second, the way CPython
compares strings. -/
def charsLeb : List Char → List Char → Bool
  | [], _ => true
  | _ :: _, [] => false
  | a :: as, b :: bs =>
      if a.toNat < b.toNat then true
      else if b.toNat < a.toNat then false
      else charsLeb as bs

theorem charsLeb_total : ∀ as bs : List Char, charsLeb as bs = true ∨ charsLeb bs as = true
  | [], _ => Or.inl rfl
  | _ :: _, [] => Or.inr rfl
  | a :: as, b :: bs => by
      simp only [charsLeb]
      rcases Nat.lt_trichotomy a.toNat b.toNat with h | h | h
      · left; simp [h]
      · have h2 : ¬ a.toNat < b.toNat := by omega
        have h3 : ¬ b.toNat < a.toNat := by omega
        rcases charsLeb_total as bs with ih | ih <;> simp [h2, h3, ih]
      · right; simp [h, Nat.lt_asymm h]

theorem char_toNat_inj {a b : Char} (h : a.toNat = b.toNat) : a = b :=
  Char.ext (UInt32.ext h)

theorem charsLeb_antisymm : ∀ as bs : List Char,
    charsLeb as bs = true → charsLeb bs as = true → as = bs
  | [], [], _, _ => rfl
  | [], _ :: _, _, h => by simp [charsLeb] at h
  | _ :: _, [], h, _ => by simp [charsLeb] at h
  | a :: as, b :: bs, h1, h2 => by
      simp only [charsLeb] at h1 h2
      rcases Nat.lt_trichotomy a.toNat b.toNat with h | h | h
      · simp [h, Nat.lt_asymm h] at h2
      · have h3 : ¬ a.toNat < b.toNat := by omega
        have h4 : ¬ b.toNat < a.toNat := by omega
        simp only [h3, h4, if_neg, if_false, ite_false] at h1 h2
        rw [char_toNat_inj h, charsLeb_antisymm as bs h1 h2]
      · simp [h, Nat.lt_asymm h] at h1

theorem charsLeb_trans : ∀ as bs cs : List Char,
    charsLeb as bs = true → charsLeb bs cs = true → charsLeb as cs = true
  | [], _, _, _, _ => rfl
  | _ :: _, [], _, h, _ => by simp [charsLeb] at h
  | _ :: _, _ :: _, [], _, h => by simp [charsLeb] at h
  | a :: as, b :: bs, c :: cs, h1, h2 => by
      simp only [charsLeb] at h1 h2 ⊢
      rcases Nat.lt_trichotomy a.toNat b.toNat with hab | hab | hab
      · rcases Nat.lt_trichotomy b.toNat c.toNat with hbc | hbc | hbc
        · simp [show a.toNat < c.toNat by omega]
        · simp [show a.toNat < c.toNat by omega]
        · simp [Nat.lt_asymm hbc, hbc] at h2
      · rcases Nat.lt_trichotomy b.toNat c.toNat with hbc | hbc | hbc
        · simp [show a.toNat < c.toNat by omega]
        · have g1 : ¬ a.toNat < c.toNat := by omega
          have g2 : ¬ c.toNat < a.toNat := by omega
          have g3 : ¬ a.toNat < b.toNat := by omega
          have g4 : ¬ b.toNat < a.toNat := by omega
          have g5 : ¬ b.toNat < c.toNat := by omega
          have g6 : ¬ c.toNat < b.toNat := by omega
          simp only [g3, g4, if_false, ite_false] at h1
          simp only [g5, g6, if_false, ite_false] at h2
          simp only [g1, g2, if_false, ite_false]
          exact charsLeb_trans as bs cs h1 h2
        · simp [Nat.lt_asymm hbc, hbc] at h2
      · simp [Nat.lt_asymm hab, hab] at h1

/-- String comparison: code-point lexicographic less-or-equal. -/
def strLeb (a b : String) : Bool := charsLeb a.data b.data

theorem string_eq_of_data {a b : String} (h : a.data = b.data) : a = b := by
  cases a; cases b; exact congrArg String.mk h

/-! Part 2: model of the Python values and their string rendering that
gen_keyfunc.keyfunc builds: the dimensions dict maps dimension names to
values of type None, str, bytes or int, and the origin key is the str() of
the sorted items list, which renders each value by repr. -/

/-- Values that appear in the dimensions mapping of gen_keyfunc.keyfunc. -/
inductive PyVal where
  | pyNone : PyVal
  | pyStr : String → PyVal
  | pyBytes : String → PyVal
  | pyInt : Nat → PyVal
deriving DecidableEq

/-- The single-quote character. -/
def qc : Char := '\''

/-- The backslash character. -/
def bsl : Char := '\\'

/-- Model of repr escaping inside a quoted Python string: quote and backslash
are escaped with a backslash, every other character passes through. The model
fixes the single-quote convention of CPython repr. -/
def escapeChar (c : Char) : List Char := if c = bsl ∨ c = qc then [bsl, c] else [c]

/-- Concatenation of the escaped characters of a list. -/
def escListAux : List Char → List Char
  | [] => []
  | c :: cs => escapeChar c ++ escListAux cs

def escapeStr (s : String) : String := String.mk (escListAux s.data)

/-- Decimal digits of a natural number, most significant first, as Python
str renders a nonnegative int. Fuel-based so that it reduces in the kernel;
fuel n + 1 always suffices. -/
def natReprCharsAux : Nat → Nat → List Char
  | 0, _ => []
  | fuel + 1, n =>
      if n < 10 then [Nat.digitChar n]
      else natReprCharsAux fuel (n / 10) ++ [Nat.digitChar (n % 10)]

def natReprChars (n : Nat) : List Char := natReprCharsAux (n + 1) n

def natReprStr (n : Nat) : String := String.mk (natReprChars n)

/-- Model of the Python repr of a dimension value, as it appears inside
str(sorted(dimensions.items())). -/
def pyRepr : PyVal → String
  | .pyNone => "None"
  | .pyStr s => String.mk (qc :: ((escapeStr s).data ++ [qc]))
  | .pyBytes s => String.mk ('b' :: qc :: ((escapeStr s).data ++ [qc]))
  | .pyInt n => natReprStr n

/-- Rendering of one (name, value) item as a Python tuple. -/
def pyReprPair (p : String × PyVal) : String :=
  "(" ++ pyRepr (.pyStr p.1) ++ ", " ++ pyRepr p.2 ++ ")"

/-- Comma-separated rendering of the items of a list, as inside str(list). -/
def pyReprGo : List (String × PyVal) → String
  | [] => ""
  | [p] => pyReprPair p
  | p :: q :: t => pyReprPair p ++ ", " ++ pyReprGo (q :: t)

/-- Model of Python str applied to a list of (name, value) tuples. -/
def pyReprList (l : List (String × PyVal)) : String := "[" ++ pyReprGo l ++ "]"

/-! Part 3: the sorted() calls of keyfunc. The dimensions dict and the inner
headers dict have unique keys, so Python tuple sorting of their items orders
by key name alone; the session items are string pairs compared as tuples. -/

/-- Ordering of dimension entries by dimension name. -/
def nameLE (a b : String × PyVal) : Prop := strLeb a.1 b.1 = true

instance : DecidableRel nameLE := fun a b => by unfold nameLE; infer_instance

instance : IsTotal (String × PyVal) nameLE where
  total a b := charsLeb_total a.1.data b.1.data

instance : IsTrans (String × PyVal) nameLE where
  trans a b c hab hbc := charsLeb_trans a.1.data b.1.data c.1.data hab hbc

/-- Lexicographic ordering on string pairs, matching Python tuple comparison
on pairs of strings. -/
def lexLE (a b : String × String) : Prop :=
  (if a.1 = b.1 then strLeb a.2 b.2 else strLeb a.1 b.1) = true

instance : DecidableRel lexLE := fun a b => by unfold lexLE; infer_instance

instance : IsTotal (String × String) lexLE where
  total a b := by
    unfold lexLE strLeb
    by_cases h : a.1 = b.1
    · rw [if_pos h, if_pos h.symm]
      exact charsLeb_total a.2.data b.2.data
    · have h' : ¬ b.1 = a.1 := fun e => h e.symm
      rw [if_neg h, if_neg h']
      exact charsLeb_total a.1.data b.1.data

instance : IsTrans (String × String) lexLE where
  trans a b c hab hbc := by
    unfold lexLE strLeb at hab hbc ⊢
    by_cases hab1 : a.1 = b.1 <;> by_cases hbc1 : b.1 = c.1
    · rw [if_pos hab1] at hab
      rw [if_pos hbc1] at hbc
      rw [if_pos (hab1.trans hbc1)]
      exact charsLeb_trans a.2.data b.2.data c.2.data hab hbc
    · have hac1 : ¬ a.1 = c.1 := fun e => hbc1 (hab1.symm.trans e)
      rw [if_neg hbc1] at hbc
      rw [if_neg hac1, hab1]
      exact hbc
    · have hac1 : ¬ a.1 = c.1 := fun e => hab1 (e.trans hbc1.symm)
      rw [if_neg hab1] at hab
      rw [if_neg hac1, ← hbc1]
      exact hab
    · by_cases hac1 : a.1 = c.1
      · exfalso
        rw [if_neg hab1] at hab
        rw [if_neg hbc1] at hbc
        rw [← hac1] at hbc
        exact hab1 (string_eq_of_data (charsLeb_antisymm _ _ hab hbc))
      · rw [if_neg hab1] at hab
        rw [if_neg hbc1] at hbc
        rw [if_neg hac1]
        exact charsLeb_trans a.1.data b.1.data c.1.data hab hbc

instance : IsAntisymm (String × String) lexLE where
  antisymm a b hab hba := by
    unfold lexLE strLeb at hab hba
    by_cases h : a.1 = b.1
    · rw [if_pos h] at hab
      rw [if_pos h.symm] at hba
      exact Prod.ext h (string_eq_of_data (charsLeb_antisymm _ _ hab hba))
    · have h' : ¬ b.1 = a.1 := fun e => h e.symm
      rw [if_neg h] at hab
      rw [if_neg h'] at hba
      exact absurd (string_eq_of_data (charsLeb_antisymm _ _ hab hba)) h

/-- The sort applied to the items of a dict with unique string keys
(the outer dimensions dict and the inner headers dict). -/
def sortDims (l : List (String × PyVal)) : List (String × PyVal) :=
  List.insertionSort nameLE l

/-- The sort applied to the session items: Python sorted on (str, str)
tuples. -/
def sortSession (l : List (String × String)) : List (String × String) :=
  List.insertionSort lexLE l

/-! Part 4: embedding of gen_keyfunc (src/flask_idempotent2.py lines 26-88).
A Request models the flask request attributes that keyfunc reads. Optional
attributes are None in flask when absent: content_type, content_length and
remote_addr. The body is wire-level optional, and flask request.data yields
the empty byte string when the request carries no body, which the embedding
applies at the read site. -/

/-- The flask request attributes read by keyfunc, by value. Header and
session mappings are association lists of string pairs. -/
structure Request where
  path : String
  method : String
  query_string : String
  data : Option String
  headers : List (String × String)
  session : List (String × String)
  content_type : Option String
  content_length : Option Nat
  remote_addr : Option String
deriving DecidableEq

/-- The keyword arguments of gen_keyfunc, with their Python defaults. -/
structure KeyfuncConfig where
  path : Bool := true
  method : Bool := true
  query_string : Bool := true
  data : Bool := true
  headers : Option (List String) := none
  session : Bool := true
  content_type : Bool := true
  content_length : Bool := true
  remote_addr : Bool := true
  use_checksum : Bool := true
deriving DecidableEq

/-- Lookup of a request header by name, request.headers.get(name, None).
Werkzeug header lookup is case-insensitive; the model uses exact names and
assumes headers are stored under the looked-up spelling. -/
def headerGet : List (String × String) → String → Option String
  | [], _ => none
  | (a, b) :: t, name => if a = name then some b else headerGet t name

/-- Python truthiness of the headers argument: both None and the empty list
fail the `if headers:` test in keyfunc. -/
def headersTruthy : Option (List String) → Bool
  | none => false
  | some [] => false
  | some (_ :: _) => true

def optStrToPy : Option String → PyVal
  | none => .pyNone
  | some s => .pyStr s

/-- The headers dimension value: str(sorted(d.items())) where d maps each
configured header name to request.headers.get(name, None). Duplicate
configured names collapse as in a Python dict; the value of a name does not
depend on its position, so dedup is sound. -/
def headersDimStr (names : List String) (hdrs : List (String × String)) : String :=
  pyReprList (sortDims (names.dedup.map (fun n => (n, optStrToPy (headerGet hdrs n)))))

/-- The session dimension value: str(sorted(flask_session.items())). -/
def sessionDimStr (sess : List (String × String)) : String :=
  pyReprList ((sortSession sess).map (fun p => (p.1, PyVal.pyStr p.2)))

/-- The remote address used by keyfunc: request.headers.get of
X-Forwarded-For with request.remote_addr as the default. -/
def requestRemoteAddr (hdrs : List (String × String)) (ra : Option String) :
    Option String :=
  match headerGet hdrs "X-Forwarded-For" with
  | some v => some v
  | none => ra

/-- The dimensions dict built by keyfunc, as a list of (name, value) items in
insertion order. Each `if` mirrors one dimension toggle of gen_keyfunc. -/
def dims (cfg : KeyfuncConfig) (r : Request) : List (String × PyVal) :=
  (if cfg.path then [("path", PyVal.pyStr r.path)] else []) ++
  (if cfg.method then [("method", PyVal.pyStr r.method)] else []) ++
  (if cfg.query_string then [("query_string", PyVal.pyBytes r.query_string)] else []) ++
  (if cfg.data then [("data", PyVal.pyBytes (r.data.getD ""))] else []) ++
  (if headersTruthy cfg.headers then
      [("headers", PyVal.pyStr (headersDimStr (cfg.headers.getD []) r.headers))] else []) ++
  (if cfg.session then [("session", PyVal.pyStr (sessionDimStr r.session))] else []) ++
  (if cfg.content_type then [("content_type", optStrToPy r.content_type)] else []) ++
  (if cfg.content_length then
      [("content_length", match r.content_length with
        | none => PyVal.pyNone
        | some n => PyVal.pyInt n)] else []) ++
  (if cfg.remote_addr then
      [("remote_addr", optStrToPy (requestRemoteAddr r.headers r.remote_addr))] else [])

/-- The origin key of keyfunc: str(sorted(dimensions.items())). -/
def originKey (cfg : KeyfuncConfig) (r : Request) : String :=
  pyReprList (sortDims (dims cfg r))

/-- Model of the keyfunc produced by gen_keyfunc. The sha1 hex digest is not
reproduced; the hash is a function parameter, applied only when use_checksum
is set. -/
def keyfunc (sha1hex : String → String) (cfg : KeyfuncConfig) (r : Request) : String :=
  if cfg.use_checksum then sha1hex (originKey cfg r) else originKey cfg r

/-! Part 5: the redis-backed cache paths of the Idempotent class. Store calls
become explicit values over a store model plus a trace of effects; a Python
raise becomes an error result. -/

/-- A flask response value, after freeze. -/
structure Resp where
  body : String
deriving DecidableEq

/-- The Python exceptions the embedded code paths can raise. -/
inductive PyErr where
  | attributeError : PyErr
  | unboundLocalError : PyErr
  | connectionError : PyErr
  | keyError : PyErr
  | unpicklingError : PyErr
deriving DecidableEq

/-- A value stored in redis: either the pickled (response, instances) pair
written by set_response_cache for a cache entry, or plain string bytes as
written for reverse-index entries. -/
inductive RVal where
  | pickled : Resp → List String → RVal
  | str : String → RVal
deriving DecidableEq

/-- Model of bytes.decode on a stored value: reverse-index entries decode to
the fingerprint string they hold; pickled bytes decode to an opaque pickle
rendering. -/
def decodeRVal : RVal → String
  | .str s => s
  | .pickled r insts => "PICKLE:" ++ r.body ++ ":" ++ String.intercalate "," insts

/-- The redis client: either reachable with a store mapping keys to values,
or unreachable, in which case every command raises. -/
inductive Redis where
  | up : List (String × RVal) → Redis
  | down : Redis

def storeGet : List (String × RVal) → String → Option RVal
  | [], _ => none
  | (a, b) :: t, k => if a = k then some b else storeGet t k

/-- redis.get. -/
def rget : Redis → String → Except PyErr (Option RVal)
  | .down, _ => .error .connectionError
  | .up store, k => .ok (storeGet store k)

/-- redis.mget. -/
def rmget : Redis → List String → Except PyErr (List (Option RVal))
  | .down, _ => .error .connectionError
  | .up store, ks => .ok (ks.map (storeGet store))

/-- Observable store and control effects of one wrapped request, in order.
Lock effects are part of the vocabulary so that their absence from every
trace of the embedded code is expressible. -/
inductive Effect where
  | cacheGet : String → Effect
  | cacheMGet : List String → Effect
  | cacheDelete : String → Effect
  | pipelineWrite : List (String × Nat × RVal) → Effect
  | lockAcquire : String → Effect
  | lockRelease : String → Effect
  | callViewFunc : Effect
deriving DecidableEq

/-- The Idempotent object fields that the cache paths read. The redis key
prefix field of the source keeps its meaning under the shorter name. -/
structure IdemCfg where
  redis_key_pfx : String
  app_name : String
  enable_idempotent_lock : Bool
deriving DecidableEq

/-- format_redis_key (lines 338-344): prefix, app name and origin key joined
by colons. -/
def format_redis_key (cfg : IdemCfg) (origin_key : String) : String :=
  cfg.redis_key_pfx ++ ":" ++ cfg.app_name ++ ":" ++ origin_key

/-- pickle.loads of a cached value (loads_cached_value, lines 346-352): the
cache write path stores a pickled (response, instances) pair; other bytes
fail to unpickle. -/
def loads_cached_value : RVal → Except PyErr (Resp × List String)
  | .pickled r insts => .ok (r, insts)
  | .str _ => .error .unpicklingError

/-- The validation loop of get_cached_response over the mget results (lines
405-408): the first absent value raises AttributeError, because None has no
decode method; the first value that decodes to a different fingerprint
reports a stale entry; otherwise the loop passes. -/
def checkReverseValues (idempotent_id : String) :
    List (Option RVal) → Except PyErr Bool
  | [] => .ok true
  | none :: _ => .error .attributeError
  | some v :: rest =>
      if decodeRVal v ≠ idempotent_id then .ok false
      else checkReverseValues idempotent_id rest

/-- get_cached_response (lines 387-409): the cached response, none on miss,
or a raise; paired with the trace of redis commands issued. An empty stored
byte string is falsy and reads as a miss, like an absent key. -/
def get_cached_response (cfg : IdemCfg) (redis : Redis) (idempotent_id : String) :
    Except PyErr (Option Resp) × List Effect :=
  let key := format_redis_key cfg idempotent_id
  match rget redis key with
  | .error e => (.error e, [.cacheGet key])
  | .ok none => (.ok none, [.cacheGet key])
  | .ok (some rv) =>
      if rv = RVal.str "" then (.ok none, [.cacheGet key])
      else
        match loads_cached_value rv with
        | .error e => (.error e, [.cacheGet key])
        | .ok (response, instances) =>
            match instances with
            | [] => (.ok (some response), [.cacheGet key])
            | _ :: _ =>
                let keys := instances.map (format_redis_key cfg)
                match rmget redis keys with
                | .error e => (.error e, [.cacheGet key, .cacheMGet keys])
                | .ok values =>
                    match checkReverseValues idempotent_id values with
                    | .error e => (.error e, [.cacheGet key, .cacheMGet keys])
                    | .ok true =>
                        (.ok (some response), [.cacheGet key, .cacheMGet keys])
                    | .ok false =>
                        (.ok none, [.cacheGet key, .cacheMGet keys, .cacheDelete key])

/-- A sqlalchemy instance as seen by dumps_response_and_changed_instances:
its persistence state, class name and primary key attribute value. -/
structure Inst where
  persistent : Bool
  className : String
  pk : Option Nat
deriving DecidableEq

/-- Python str of the primary key value inside format: None renders as None,
an int as its digits. -/
def pkStr : Option Nat → String
  | none => "None"
  | some n => natReprStr n

/-- The instance string of an instance: resource name, colon, primary key. -/
def instStr (i : Inst) : String := i.className ++ ":" ++ pkStr i.pk

/-- Python set.add modelled on lists: append if not already present. -/
def setAdd (l : List String) (s : String) : List String :=
  if s ∈ l then l else l ++ [s]

/-- The loop of dumps_response_and_changed_instances (lines 374-382). The
statement instances.add(instance_str) sits outside the persistence check in
the source, so instance_str holds the string of the most recent persistent
instance; when the first instance is not persistent the name is still
unbound and the loop raises UnboundLocalError. -/
def dumpsLoop : List Inst → Option String → List String → Except PyErr (List String)
  | [], _, acc => .ok acc
  | i :: rest, cur, acc =>
      let cur' := if i.persistent then some (instStr i) else cur
      match cur' with
      | none => .error .unboundLocalError
      | some s => dumpsLoop rest cur' (setAdd acc s)

/-- The request-scoped flask.g attributes written by the change tracker; a
field is none while the attribute is not yet set. -/
structure GState where
  idempotent_changes : Option (List Inst)
  idempotent_committed_changes : Option (List Inst)
deriving DecidableEq

/-- record_committed_changes (lines 284-293) after the
should_call_sqlalchemy_hook guard has passed: getattr of the pending list
with default None, and promotion only when that list is truthy. -/
def record_committed_changes (g : GState) : GState :=
  match g.idempotent_changes with
  | none => g
  | some [] => g
  | some cs => { g with idempotent_committed_changes := some cs,
                        idempotent_changes := some [] }

/-- dumps_response_and_changed_instances (lines 354-385): serialize the
response together with the instance strings of the committed changes; the
result is the pickled value and the instance strings. -/
def dumps_response_and_changed_instances (g : GState) (response : Resp) :
    Except PyErr (RVal × List String) :=
  match dumpsLoop (g.idempotent_committed_changes.getD []) none [] with
  | .error e => .error e
  | .ok instances => .ok (.pickled response instances, instances)

/-- set_response_cache (lines 411-431): one pipelined write holding the cache
entry under the fingerprint key and one reverse-index entry per affected
instance, every entry with the same timeout. A raise from serialization
happens before any write; an unreachable store raises at pipeline
execution. -/
def set_response_cache (cfg : IdemCfg) (redis : Redis) (g : GState)
    (idempotent_id : String) (response : Resp) (timeout : Nat) :
    Except PyErr Unit × List Effect :=
  match dumps_response_and_changed_instances g response with
  | .error e => (.error e, [])
  | .ok (value, instances) =>
      let entries := (format_redis_key cfg idempotent_id, timeout, value) ::
        instances.map (fun s => (format_redis_key cfg s, timeout, RVal.str idempotent_id))
      match redis with
      | .down => (.error .connectionError, [.pipelineWrite entries])
      | .up _ => (.ok (), [.pipelineWrite entries])

/-- The wrapped_view_function body built by wrap_view_func (lines 326-336):
compute the fingerprint, consult the cache, return a hit, otherwise call the
view function and cache its response. Store exceptions propagate unhandled.
The committed-changes state g is the state after the view function ran; the
view function itself is modelled by the fresh response it returns. -/
def wrapped_view_function (cfg : IdemCfg) (redis : Redis) (g : GState)
    (timeout : Nat) (idempotent_id : String) (fresh : Resp) :
    Except PyErr Resp × List Effect :=
  match get_cached_response cfg redis idempotent_id with
  | (.error e, tr) => (.error e, tr)
  | (.ok (some cached), tr) => (.ok cached, tr)
  | (.ok none, tr) =>
      match set_response_cache cfg redis g idempotent_id fresh timeout with
      | (.error e, tr2) => (.error e, tr ++ [.callViewFunc] ++ tr2)
      | (.ok _, tr2) => (.ok fresh, tr ++ [.callViewFunc] ++ tr2)

/-! Part 6: registration (wrap_view_func as a registration step, forget,
auto_register). -/

/-- A view function value: its wrapper depth together with the function
attributes for forget and wrapped marking (functools.wraps copies the
attribute dict of the wrapped function onto the wrapper). -/
structure VFunc where
  wrapCount : Nat
  forget : Bool
  wrapped : Bool
deriving DecidableEq

/-- wrap_view_func (lines 299-336) as a registration step: a function marked
to forget is returned unchanged, an already wrapped function is returned
unchanged, otherwise a new wrapper is returned with the wrapped mark set. -/
def wrap_view_func (f : VFunc) : VFunc :=
  if f.forget then f
  else if f.wrapped then f
  else { f with wrapCount := f.wrapCount + 1, wrapped := true }

/-- One url rule of the flask url map. -/
structure UrlRule where
  endpoint : String
  methods : List String
deriving DecidableEq

/-- Assoc-list read of the view function registry. -/
def vfGet : List (String × VFunc) → String → Option VFunc
  | [], _ => none
  | (a, b) :: t, k => if a = k then some b else vfGet t k

/-- Assoc-list write of the view function registry; auto_register only
assigns to an endpoint it has just read, so the behaviour on an absent key
is never exercised. -/
def vfUpdate : List (String × VFunc) → String → VFunc → List (String × VFunc)
  | [], _, _ => []
  | (a, b) :: t, k, v => (if a = k then (k, v) else (a, b)) :: vfUpdate t k v

/-- One iteration of the inner loop of auto_register for a single http
method of a rule: filter on the method, reread the registry, skip forgotten
functions, store the wrapped function. -/
def autoStep (http_methods : List String) (m : List (String × VFunc))
    (ep : String) (meth : String) : Except PyErr (List (String × VFunc)) :=
  if meth ∈ http_methods then
    match vfGet m ep with
    | none => .error .keyError
    | some vf =>
        if vf.forget then .ok m
        else .ok (vfUpdate m ep (wrap_view_func vf))
  else .ok m

/-- The inner loop of auto_register over the methods of one rule, with a
raise ending the loop early. -/
def autoMethods (http_methods : List String) (ep : String) :
    List (String × VFunc) → List String → Except PyErr (List (String × VFunc))
  | m, [] => .ok m
  | m, meth :: rest =>
      match autoStep http_methods m ep meth with
      | .error e => .error e
      | .ok m' => autoMethods http_methods ep m' rest

/-- auto_register (lines 177-204): iterate the url rules in order, skipping
reserved endpoints, updating the view function registry through the wrap
step. -/
def auto_register (http_methods reserved : List String) :
    List (String × VFunc) → List UrlRule → Except PyErr (List (String × VFunc))
  | m, [] => .ok m
  | m, rule :: rest =>
      if rule.endpoint ∈ reserved then auto_register http_methods reserved m rest
      else
        match autoMethods http_methods rule.endpoint m rule.methods with
        | .error e => .error e
        | .ok m' => auto_register http_methods reserved m' rest

/-! Part 7: helper functions and lemmas over the cache model. -/

/-- Recognizer for lock effects in a trace. -/
def isLockEffect : Effect → Bool
  | .lockAcquire _ => true
  | .lockRelease _ => true
  | .cacheGet _ => false
  | .cacheMGet _ => false
  | .cacheDelete _ => false
  | .pipelineWrite _ => false
  | .callViewFunc => false

/-- Recognizer for the view function call in a trace. -/
def isCallViewFunc : Effect → Bool
  | .callViewFunc => true
  | .lockAcquire _ => false
  | .lockRelease _ => false
  | .cacheGet _ => false
  | .cacheMGet _ => false
  | .cacheDelete _ => false
  | .pipelineWrite _ => false

theorem get_trace_lockfree (cfg : IdemCfg) (redis : Redis) (idempotent_id : String) :
    ((get_cached_response cfg redis idempotent_id).2).filter isLockEffect = [] := by
  simp only [get_cached_response]
  repeat' split
  all_goals rfl

theorem set_trace_lockfree (cfg : IdemCfg) (redis : Redis) (g : GState)
    (idempotent_id : String) (response : Resp) (timeout : Nat) :
    ((set_response_cache cfg redis g idempotent_id response timeout).2).filter
      isLockEffect = [] := by
  unfold set_response_cache
  repeat' split <;> simp [isLockEffect]

/-- The instance strings accumulated from a committed-changes list in which
every instance is persistent. -/
def collectInstanceStrs (l : List Inst) : List String :=
  l.foldl (fun a i => setAdd a (instStr i)) []

theorem dumpsLoop_all_persistent :
    ∀ (l : List Inst) (cur : Option String) (acc : List String),
      (∀ i ∈ l, i.persistent = true) →
      dumpsLoop l cur acc = .ok (l.foldl (fun a i => setAdd a (instStr i)) acc)
  | [], _, _, _ => rfl
  | i :: rest, cur, acc, h => by
      have hi : i.persistent = true := h i (List.mem_cons_self i rest)
      simp only [dumpsLoop, hi, if_true, List.foldl_cons]
      exact dumpsLoop_all_persistent rest (some (instStr i)) (setAdd acc (instStr i))
        (fun j hj => h j (List.mem_cons_of_mem i hj))

/-! Part 8: the claims. -/

/-- C1: with enable_idempotent_lock set, the wrapped view function is claimed
to acquire a fingerprint-scoped lock before executing the view function on a
miss. The code stores the flag but never uses it: for every configuration,
store state and request, the trace contains no lock effect at all, and at a
concrete cache miss with the lock enabled the view function runs directly
between the cache read and the cache write. -/
theorem C1_no_lock_ever_acquired :
    (∀ (cfg : IdemCfg) (redis : Redis) (g : GState) (timeout : Nat)
        (idempotent_id : String) (fresh : Resp),
      ((wrapped_view_function cfg redis g timeout idempotent_id fresh).2).filter
        isLockEffect = []) ∧
    (wrapped_view_function ⟨"idempotent", "app", true⟩ (.up []) ⟨none, none⟩ 30 "fp" ⟨"r"⟩ =
      (.ok ⟨"r"⟩, [.cacheGet "idempotent:app:fp", .callViewFunc,
        .pipelineWrite [("idempotent:app:fp", 30, RVal.pickled ⟨"r"⟩ [])]])) := by
  constructor
  · intro cfg redis g timeout idempotent_id fresh
    unfold wrapped_view_function
    have hget := get_trace_lockfree cfg redis idempotent_id
    have hset := set_trace_lockfree cfg redis g idempotent_id fresh timeout
    split
    · next e tr heq => rw [heq] at hget; exact hget
    · next cached tr heq => rw [heq] at hget; exact hget
    · next tr heq =>
        rw [heq] at hget
        split
        · next e tr2 heq2 =>
            rw [heq2] at hset
            simp only [List.filter_append] at *
            simp [hget, hset, isLockEffect]
        · next u tr2 heq2 =>
            rw [heq2] at hset
            simp only [List.filter_append] at *
            simp [hget, hset, isLockEffect]
  · rfl

/-- C2: on a cached entry whose affected-instance set is nonempty, an absent
reverse-index value is claimed to be treated like a mismatch, deleting the
entry and reporting a miss with no error surfaced. The code calls decode on
the absent value: at a store holding the cache entry but no reverse-index
key, get_cached_response raises AttributeError after the batched read,
deletes nothing and surfaces the error. -/
theorem C2_absent_reverse_index_raises :
    (storeGet [("idempotent:app:fp", RVal.pickled ⟨"r"⟩ ["User:1"])]
        "idempotent:app:User:1" = none) ∧
    (get_cached_response ⟨"idempotent", "app", true⟩
        (.up [("idempotent:app:fp", RVal.pickled ⟨"r"⟩ ["User:1"])]) "fp" =
      (.error .attributeError,
        [.cacheGet "idempotent:app:fp", .cacheMGet ["idempotent:app:User:1"]])) :=
  ⟨rfl, rfl⟩

/-- C3: a cached entry with an empty affected-instance set is returned
unconditionally: whatever else the store holds, the trace is exactly one
cache read, with no reverse-index read and no delete. -/
theorem C3_empty_instance_set_unconditional_hit (cfg : IdemCfg)
    (store : List (String × RVal)) (idempotent_id : String) (response : Resp)
    (h : storeGet store (format_redis_key cfg idempotent_id) =
      some (RVal.pickled response [])) :
    get_cached_response cfg (.up store) idempotent_id =
      (.ok (some response), [.cacheGet (format_redis_key cfg idempotent_id)]) := by
  simp only [get_cached_response, rget]
  rw [h]
  rfl

theorem C3_witness :
    (storeGet [("idempotent:app:fp", RVal.pickled ⟨"r"⟩ [])]
        (format_redis_key ⟨"idempotent", "app", true⟩ "fp") =
      some (RVal.pickled ⟨"r"⟩ [])) ∧
    (get_cached_response ⟨"idempotent", "app", true⟩
        (.up [("idempotent:app:fp", RVal.pickled ⟨"r"⟩ [])]) "fp" =
      (.ok (some ⟨"r"⟩), [.cacheGet "idempotent:app:fp"])) :=
  ⟨rfl, C3_empty_instance_set_unconditional_hit ⟨"idempotent", "app", true⟩
    [("idempotent:app:fp", RVal.pickled ⟨"r"⟩ [])] "fp" ⟨"r"⟩ rfl⟩

/-- C4: set_response_cache issues a single batched write holding the pickled
cache entry under prefix:app:fingerprint and one reverse-index entry per
affected instance under prefix:app:instance, every entry carrying the
fingerprint as value and the same timeout. Stated for committed changes in
which every instance is persistent, where serialization succeeds. -/
theorem C4_single_batched_write (cfg : IdemCfg) (store : List (String × RVal))
    (g : GState) (idempotent_id : String) (response : Resp) (timeout : Nat)
    (h : ∀ i ∈ g.idempotent_committed_changes.getD [], i.persistent = true) :
    set_response_cache cfg (.up store) g idempotent_id response timeout =
      (.ok (), [.pipelineWrite
        ((cfg.redis_key_pfx ++ ":" ++ cfg.app_name ++ ":" ++ idempotent_id, timeout,
            RVal.pickled response
              (collectInstanceStrs (g.idempotent_committed_changes.getD []))) ::
          (collectInstanceStrs (g.idempotent_committed_changes.getD [])).map
            (fun s => (cfg.redis_key_pfx ++ ":" ++ cfg.app_name ++ ":" ++ s, timeout,
              RVal.str idempotent_id)))]) := by
  unfold set_response_cache dumps_response_and_changed_instances
  rw [dumpsLoop_all_persistent _ _ _ h]
  rfl

theorem C4_witness :
    (∀ i ∈ ((⟨none, some [⟨true, "User", some 1⟩]⟩ :
        GState).idempotent_committed_changes.getD []), i.persistent = true) ∧
    (set_response_cache ⟨"idempotent", "app", true⟩ (.up [])
        ⟨none, some [⟨true, "User", some 1⟩]⟩ "fp" ⟨"r"⟩ 30 =
      (.ok (), [.pipelineWrite
        [("idempotent:app:fp", 30, RVal.pickled ⟨"r"⟩ ["User:1"]),
         ("idempotent:app:User:1", 30, RVal.str "fp")]])) :=
  ⟨by decide, C4_single_batched_write ⟨"idempotent", "app", true⟩ []
    ⟨none, some [⟨true, "User", some 1⟩]⟩ "fp" ⟨"r"⟩ 30 (by decide)⟩

/-- C5: the affected-instance set is claimed to contain exactly the
persistent instances, with transient and detached instances dropped and
never causing a failure. In the source the set insertion sits outside the
persistence check, so a committed-changes list whose first instance is not
persistent raises UnboundLocalError and the cache write fails. -/
theorem C5_first_transient_instance_raises :
    (Inst.persistent ⟨false, "User", none⟩ = false) ∧
    (dumps_response_and_changed_instances ⟨none, some [⟨false, "User", none⟩]⟩ ⟨"r"⟩ =
      .error .unboundLocalError) ∧
    (set_response_cache ⟨"idempotent", "app", true⟩ (.up [])
        ⟨none, some [⟨false, "User", none⟩]⟩ "fp" ⟨"r"⟩ 30 =
      (.error .unboundLocalError, [])) :=
  ⟨rfl, rfl, rfl⟩

/-- C9 counterexample: with the store unreachable, the wrapped view function
does not execute the protected operation and does not return its response;
the raised store error propagates, and the trace holds no view call. -/
theorem C9_counterexample_store_down :
    (wrapped_view_function ⟨"idempotent", "app", true⟩ .down ⟨none, none⟩ 30 "fp" ⟨"r"⟩ =
      (.error .connectionError, [.cacheGet "idempotent:app:fp"])) ∧
    (((wrapped_view_function ⟨"idempotent", "app", true⟩ .down ⟨none, none⟩ 30 "fp"
        ⟨"r"⟩).2).filter isCallViewFunc = []) :=
  ⟨rfl, rfl⟩

/-- C9 amended: when the cache store is unreachable, the wrapped view
function propagates the store failure as its own: the lookup raise ends the
request before the view function runs, and nothing degrades to a miss. -/
theorem C9_amended_store_failure_propagates (cfg : IdemCfg) (g : GState)
    (timeout : Nat) (idempotent_id : String) (fresh : Resp) :
    wrapped_view_function cfg .down g timeout idempotent_id fresh =
      (.error .connectionError, [.cacheGet (format_redis_key cfg idempotent_id)]) := rfl

/-- C10: when record_committed_changes fires with an unset or empty
pending-changes list, the whole g state, in particular a previously
finalized committed-changes set, is left unchanged. -/
theorem C10_empty_commit_preserves_state (g : GState)
    (h : g.idempotent_changes = none ∨ g.idempotent_changes = some []) :
    record_committed_changes g = g := by
  rcases h with h | h <;> simp [record_committed_changes, h]

theorem C10_witness :
    ((⟨some [], some [⟨true, "User", some 1⟩]⟩ : GState).idempotent_changes = some []) ∧
    (record_committed_changes ⟨some [], some [⟨true, "User", some 1⟩]⟩ =
      (⟨some [], some [⟨true, "User", some 1⟩]⟩ : GState)) :=
  ⟨rfl, C10_empty_commit_preserves_state ⟨some [], some [⟨true, "User", some 1⟩]⟩
    (Or.inr rfl)⟩

/-! Part 9: registration lemmas and claim C8. -/

theorem wrap_forget (f : VFunc) (h : f.forget = true) : wrap_view_func f = f := by
  simp [wrap_view_func, h]

theorem wrap_wrapped (f : VFunc) (h : f.wrapped = true) : wrap_view_func f = f := by
  simp [wrap_view_func, h]

theorem wrap_forget_field (f : VFunc) : (wrap_view_func f).forget = f.forget := by
  by_cases hf : f.forget <;> by_cases hw : f.wrapped <;> simp [wrap_view_func, hf, hw]

theorem wrap_idem (f : VFunc) : wrap_view_func (wrap_view_func f) = wrap_view_func f := by
  by_cases hf : f.forget <;> by_cases hw : f.wrapped <;> simp [wrap_view_func, hf, hw]

theorem vfGet_update_self : ∀ (m : List (String × VFunc)) (k : String) (v : VFunc),
    vfGet (vfUpdate m k v) k = (vfGet m k).map (fun _ => v)
  | [], _, _ => rfl
  | (a, b) :: t, k, v => by
      simp only [vfUpdate]
      by_cases h : a = k
      · rw [if_pos h]
        simp [vfGet, h]
      · rw [if_neg h]
        simp [vfGet, h, vfGet_update_self t k v]

theorem vfGet_update_other : ∀ (m : List (String × VFunc)) (k : String) (v : VFunc)
    (e : String), e ≠ k → vfGet (vfUpdate m k v) e = vfGet m e
  | [], _, _, _, _ => rfl
  | (a, b) :: t, k, v, e, he => by
      simp only [vfUpdate]
      have hke : ¬ (k = e) := fun hh => he hh.symm
      by_cases h : a = k
      · rw [if_pos h]
        simp [vfGet, h, hke, vfGet_update_other t k v e he]
      · rw [if_neg h]
        simp [vfGet, vfGet_update_other t k v e he]

theorem autoMethods_spec (hms : List String) (ep : String) :
    ∀ (meths : List String) (mc : List (String × VFunc)) (vf : VFunc),
      vfGet mc ep = some vf →
      ∃ r, autoMethods hms ep mc meths = .ok r ∧
        vfGet r ep = some (if vf.forget = false ∧ ∃ meth ∈ meths, meth ∈ hms
          then wrap_view_func vf else vf) ∧
        ∀ e, e ≠ ep → vfGet r e = vfGet mc e
  | [], mc, vf, h => ⟨mc, rfl, by simp [h], fun _ _ => rfl⟩
  | meth :: rest, mc, vf, h => by
      by_cases hm : meth ∈ hms
      · by_cases hf : vf.forget = true
        · obtain ⟨r, hr, hre, hro⟩ := autoMethods_spec hms ep rest mc vf h
          refine ⟨r, ?_, ?_, hro⟩
          · simp [autoMethods, autoStep, hm, h, hf, hr]
          · rw [hre]
            simp [hf]
        · have hf' : vf.forget = false := by revert hf; cases vf.forget <;> simp
          have h1 : vfGet (vfUpdate mc ep (wrap_view_func vf)) ep =
              some (wrap_view_func vf) := by rw [vfGet_update_self, h]; rfl
          obtain ⟨r, hr, hre, hro⟩ := autoMethods_spec hms ep rest _ _ h1
          refine ⟨r, ?_, ?_, ?_⟩
          · simp [autoMethods, autoStep, hm, h, hf', hr]
          · rw [hre]
            have hwf : (wrap_view_func vf).forget = false := by
              rw [wrap_forget_field]; exact hf'
            by_cases hex : ∃ m' ∈ rest, m' ∈ hms
            · simp [List.exists_mem_cons_iff, hex, hwf, wrap_idem, hf', hm]
            · simp [List.exists_mem_cons_iff, hex, hwf, hf', hm]
          · intro e he
            rw [hro e he, vfGet_update_other mc ep _ e he]
      · obtain ⟨r, hr, hre, hro⟩ := autoMethods_spec hms ep rest mc vf h
        refine ⟨r, ?_, ?_, hro⟩
        · simp [autoMethods, autoStep, hm, hr]
        · rw [hre]
          by_cases hex : ∃ m' ∈ rest, m' ∈ hms
          · simp [List.exists_mem_cons_iff, hex, hm]
          · simp [List.exists_mem_cons_iff, hex, hm]

/-- The registration condition of C8: the endpoint is not reserved, the
function is not marked forget, and some rule for the endpoint carries a
method passing the filter. -/
def wrapCond (rules : List UrlRule) (hms res : List String) (e : String)
    (vf : VFunc) : Prop :=
  e ∉ res ∧ vf.forget = false ∧
    ∃ rule ∈ rules, rule.endpoint = e ∧ ∃ meth ∈ rule.methods, meth ∈ hms

instance (rules : List UrlRule) (hms res : List String) (e : String) (vf : VFunc) :
    Decidable (wrapCond rules hms res e vf) := by
  unfold wrapCond; infer_instance

theorem wrapCond_cons_reserved {rule : UrlRule} {rest : List UrlRule}
    {hms res : List String} {e : String} {vf : VFunc} (hres : rule.endpoint ∈ res) :
    wrapCond (rule :: rest) hms res e vf ↔ wrapCond rest hms res e vf := by
  unfold wrapCond
  constructor
  · rintro ⟨h1, h2, ru, hru, h3, h4⟩
    rcases List.mem_cons.mp hru with rfl | hru'
    · exact absurd (h3 ▸ hres) h1
    · exact ⟨h1, h2, ru, hru', h3, h4⟩
  · rintro ⟨h1, h2, ru, hru, h3, h4⟩
    exact ⟨h1, h2, ru, List.mem_cons_of_mem _ hru, h3, h4⟩

theorem wrapCond_cons_other {rule : UrlRule} {rest : List UrlRule}
    {hms res : List String} {e : String} {vf : VFunc} (hne : rule.endpoint ≠ e) :
    wrapCond (rule :: rest) hms res e vf ↔ wrapCond rest hms res e vf := by
  unfold wrapCond
  constructor
  · rintro ⟨h1, h2, ru, hru, h3, h4⟩
    rcases List.mem_cons.mp hru with rfl | hru'
    · exact absurd h3 hne
    · exact ⟨h1, h2, ru, hru', h3, h4⟩
  · rintro ⟨h1, h2, ru, hru, h3, h4⟩
    exact ⟨h1, h2, ru, List.mem_cons_of_mem _ hru, h3, h4⟩

theorem wrapCond_cons_nomatch {rule : UrlRule} {rest : List UrlRule}
    {hms res : List String} {e : String} {vf : VFunc}
    (hex : ¬ ∃ meth ∈ rule.methods, meth ∈ hms) :
    wrapCond (rule :: rest) hms res e vf ↔ wrapCond rest hms res e vf := by
  unfold wrapCond
  constructor
  · rintro ⟨h1, h2, ru, hru, h3, h4⟩
    rcases List.mem_cons.mp hru with rfl | hru'
    · exact absurd h4 hex
    · exact ⟨h1, h2, ru, hru', h3, h4⟩
  · rintro ⟨h1, h2, ru, hru, h3, h4⟩
    exact ⟨h1, h2, ru, List.mem_cons_of_mem _ hru, h3, h4⟩

theorem auto_register_spec (hms res : List String) :
    ∀ (rules : List UrlRule) (mc : List (String × VFunc)),
      (∀ rule ∈ rules, rule.endpoint ∉ res → (vfGet mc rule.endpoint).isSome = true) →
      ∃ r, auto_register hms res mc rules = .ok r ∧
        ∀ e, vfGet r e = (vfGet mc e).map
          (fun vf => if wrapCond rules hms res e vf then wrap_view_func vf else vf)
  | [], mc, _ => ⟨mc, rfl, by
      intro e; cases hv : vfGet mc e <;> simp [wrapCond, hv]⟩
  | rule :: rest, mc, h => by
      by_cases hres : rule.endpoint ∈ res
      · have h' : ∀ ru ∈ rest, ru.endpoint ∉ res → (vfGet mc ru.endpoint).isSome = true :=
          fun ru hru => h ru (List.mem_cons_of_mem _ hru)
        obtain ⟨r, hr, hre⟩ := auto_register_spec hms res rest mc h'
        refine ⟨r, ?_, ?_⟩
        · simp [auto_register, hres, hr]
        · intro e
          rw [hre e]
          cases hv : vfGet mc e with
          | none => rfl
          | some vfe =>
              simp only [Option.map_some']
              by_cases hcr : wrapCond rest hms res e vfe
              · rw [if_pos hcr, if_pos ((wrapCond_cons_reserved hres).mpr hcr)]
              · rw [if_neg hcr, if_neg (fun hc => hcr ((wrapCond_cons_reserved hres).mp hc))]
      · have hsome := h rule (List.mem_cons_self _ _) hres
        cases hv0 : vfGet mc rule.endpoint with
        | none => rw [hv0] at hsome; simp at hsome
        | some vf0 =>
          obtain ⟨m1, hm1, hm1e, hm1o⟩ :=
            autoMethods_spec hms rule.endpoint rule.methods mc vf0 hv0
          have h1 : ∀ ru ∈ rest, ru.endpoint ∉ res → (vfGet m1 ru.endpoint).isSome = true := by
            intro ru hru hrres
            by_cases he : ru.endpoint = rule.endpoint
            · rw [he, hm1e]; rfl
            · rw [hm1o _ he]; exact h ru (List.mem_cons_of_mem _ hru) hrres
          obtain ⟨r, hr, hre⟩ := auto_register_spec hms res rest m1 h1
          refine ⟨r, ?_, ?_⟩
          · simp [auto_register, hres, hm1, hr]
          · intro e
            rw [hre e]
            by_cases he : e = rule.endpoint
            · rw [he, hm1e, hv0]
              simp only [Option.map_some']
              by_cases hf : vf0.forget = true
              · have c1 : ¬ (vf0.forget = false ∧ ∃ meth ∈ rule.methods, meth ∈ hms) := by
                  simp [hf]
                rw [if_neg c1]
                have w1 : ¬ wrapCond rest hms res rule.endpoint vf0 := by
                  rintro ⟨_, h2, _⟩; rw [hf] at h2; cases h2
                have w2 : ¬ wrapCond (rule :: rest) hms res rule.endpoint vf0 := by
                  rintro ⟨_, h2, _⟩; rw [hf] at h2; cases h2
                rw [if_neg w1, if_neg w2]
              · have hf' : vf0.forget = false := by revert hf; cases vf0.forget <;> simp
                by_cases hex : ∃ meth ∈ rule.methods, meth ∈ hms
                · rw [if_pos (show vf0.forget = false ∧ ∃ meth ∈ rule.methods, meth ∈ hms
                    from ⟨hf', hex⟩)]
                  have hcondfull : wrapCond (rule :: rest) hms res rule.endpoint vf0 :=
                    ⟨hres, hf', rule, List.mem_cons_self _ _, rfl, hex⟩
                  rw [if_pos hcondfull]
                  by_cases hcr : wrapCond rest hms res rule.endpoint (wrap_view_func vf0)
                  · rw [if_pos hcr, wrap_idem]
                  · rw [if_neg hcr]
                · rw [if_neg (show ¬ (vf0.forget = false ∧ ∃ meth ∈ rule.methods, meth ∈ hms)
                    from fun hc => hex hc.2)]
                  by_cases hcr : wrapCond rest hms res rule.endpoint vf0
                  · rw [if_pos hcr, if_pos ((wrapCond_cons_nomatch hex).mpr hcr)]
                  · rw [if_neg hcr,
                      if_neg (fun hc => hcr ((wrapCond_cons_nomatch hex).mp hc))]
            · rw [hm1o e he]
              cases hv : vfGet mc e with
              | none => rfl
              | some vfe =>
                  simp only [Option.map_some']
                  have hiff := @wrapCond_cons_other rule rest hms res e vfe
                    (fun hh => he hh.symm)
                  by_cases hcr : wrapCond rest hms res e vfe
                  · rw [if_pos hcr, if_pos (hiff.mpr hcr)]
                  · rw [if_neg hcr, if_neg (fun hc => hcr (hiff.mp hc))]

/-- C8: registration is idempotent: an already wrapped function and a
function marked to forget are returned unchanged by wrap_view_func; and
auto_register, for every rule list, method filter and reserved list over a
registry that holds every non-reserved rule endpoint, succeeds and maps each
endpoint entry through exactly one application of wrap_view_func when the
endpoint is non-reserved, not forgotten and matched by some rule with a
filtered method, and leaves it untouched otherwise. -/
theorem C8_registration_idempotent_and_auto :
    (∀ f : VFunc, f.wrapped = true → wrap_view_func f = f) ∧
    (∀ f : VFunc, f.forget = true → wrap_view_func f = f) ∧
    (∀ (hms res : List String) (rules : List UrlRule) (mc : List (String × VFunc)),
      (∀ rule ∈ rules, rule.endpoint ∉ res → (vfGet mc rule.endpoint).isSome = true) →
      ∃ r, auto_register hms res mc rules = .ok r ∧
        ∀ e, vfGet r e = (vfGet mc e).map
          (fun vf => if wrapCond rules hms res e vf then wrap_view_func vf else vf)) :=
  ⟨wrap_wrapped, wrap_forget,
   fun hms res rules mc h => auto_register_spec hms res rules mc h⟩

theorem C8_witness :
    (wrap_view_func ⟨1, false, true⟩ = ⟨1, false, true⟩) ∧
    (wrap_view_func ⟨0, true, false⟩ = ⟨0, true, false⟩) ∧
    (∃ r, auto_register ["GET", "PUT", "DELETE"] ["static"]
        [("user", ⟨0, false, false⟩), ("static", ⟨0, false, false⟩),
         ("skip", ⟨0, true, false⟩)]
        [⟨"user", ["PUT", "POST", "DELETE"]⟩, ⟨"static", ["GET"]⟩,
         ⟨"skip", ["GET"]⟩, ⟨"user", ["PUT"]⟩] = .ok r ∧
      ∀ e, vfGet r e =
        (vfGet [("user", ⟨0, false, false⟩), ("static", ⟨0, false, false⟩),
          ("skip", ⟨0, true, false⟩)] e).map
          (fun vf => if wrapCond
              [⟨"user", ["PUT", "POST", "DELETE"]⟩, ⟨"static", ["GET"]⟩,
               ⟨"skip", ["GET"]⟩, ⟨"user", ["PUT"]⟩]
              ["GET", "PUT", "DELETE"] ["static"] e vf
            then wrap_view_func vf else vf)) :=
  ⟨C8_registration_idempotent_and_auto.1 ⟨1, false, true⟩ rfl,
   C8_registration_idempotent_and_auto.2.1 ⟨0, true, false⟩ rfl,
   C8_registration_idempotent_and_auto.2.2 ["GET", "PUT", "DELETE"] ["static"]
     [⟨"user", ["PUT", "POST", "DELETE"]⟩, ⟨"static", ["GET"]⟩,
      ⟨"skip", ["GET"]⟩, ⟨"user", ["PUT"]⟩]
     [("user", ⟨0, false, false⟩), ("static", ⟨0, false, false⟩),
      ("skip", ⟨0, true, false⟩)] (by decide)⟩

/-! Part 10: claim C6: the fingerprint ignores disabled dimensions, and the
sorting of the nested mappings makes item order irrelevant. -/

theorem sortSession_perm_eq {l1 l2 : List (String × String)} (h : l1.Perm l2) :
    sortSession l1 = sortSession l2 :=
  List.eq_of_perm_of_sorted
    (((List.perm_insertionSort lexLE l1).trans h).trans
      (List.perm_insertionSort lexLE l2).symm)
    (List.sorted_insertionSort lexLE l1) (List.sorted_insertionSort lexLE l2)

theorem sessionDimStr_congr {l1 l2 : List (String × String)} (h : l1.Perm l2) :
    sessionDimStr l1 = sessionDimStr l2 := by
  unfold sessionDimStr
  rw [sortSession_perm_eq h]

theorem headersDimStr_congr (names : List String)
    {hd1 hd2 : List (String × String)}
    (h : ∀ n ∈ names, headerGet hd1 n = headerGet hd2 n) :
    headersDimStr names hd1 = headersDimStr names hd2 := by
  unfold headersDimStr
  congr 2
  exact List.map_congr_left (fun n hn => by rw [h n (List.mem_dedup.mp hn)])

/-- Agreement of two requests on every dimension enabled in a keyfunc
configuration. The session dimension agrees up to reordering of its items,
since dict items come in arbitrary order; for the headers dimension and the
remote address only the looked-up values matter. -/
def AgreesOnEnabled (cfg : KeyfuncConfig) (r1 r2 : Request) : Prop :=
  (cfg.path = true → r1.path = r2.path) ∧
  (cfg.method = true → r1.method = r2.method) ∧
  (cfg.query_string = true → r1.query_string = r2.query_string) ∧
  (cfg.data = true → r1.data.getD "" = r2.data.getD "") ∧
  (∀ n ∈ cfg.headers.getD [], headerGet r1.headers n = headerGet r2.headers n) ∧
  (cfg.session = true → r1.session.Perm r2.session) ∧
  (cfg.content_type = true → r1.content_type = r2.content_type) ∧
  (cfg.content_length = true → r1.content_length = r2.content_length) ∧
  (cfg.remote_addr = true →
    requestRemoteAddr r1.headers r1.remote_addr = requestRemoteAddr r2.headers r2.remote_addr)

instance (cfg : KeyfuncConfig) (r1 r2 : Request) :
    Decidable (AgreesOnEnabled cfg r1 r2) := by
  unfold AgreesOnEnabled; infer_instance

theorem dims_eq_of_agrees (cfg : KeyfuncConfig) (r1 r2 : Request)
    (h : AgreesOnEnabled cfg r1 r2) : dims cfg r1 = dims cfg r2 := by
  obtain ⟨h1, h2, h3, h4, h5, h6, h7, h8, h9⟩ := h
  unfold dims
  have e1 : (if cfg.path then [("path", PyVal.pyStr r1.path)] else []) =
      (if cfg.path then [("path", PyVal.pyStr r2.path)] else []) := by
    cases hc : cfg.path
    · rfl
    · simp [h1 hc]
  have e2 : (if cfg.method then [("method", PyVal.pyStr r1.method)] else []) =
      (if cfg.method then [("method", PyVal.pyStr r2.method)] else []) := by
    cases hc : cfg.method
    · rfl
    · simp [h2 hc]
  have e3 : (if cfg.query_string then
        [("query_string", PyVal.pyBytes r1.query_string)] else []) =
      (if cfg.query_string then
        [("query_string", PyVal.pyBytes r2.query_string)] else []) := by
    cases hc : cfg.query_string
    · rfl
    · simp [h3 hc]
  have e4 : (if cfg.data then [("data", PyVal.pyBytes (r1.data.getD ""))] else []) =
      (if cfg.data then [("data", PyVal.pyBytes (r2.data.getD ""))] else []) := by
    cases hc : cfg.data
    · rfl
    · simp [h4 hc]
  have e5 : (if headersTruthy cfg.headers then
        [("headers", PyVal.pyStr (headersDimStr (cfg.headers.getD []) r1.headers))] else []) =
      (if headersTruthy cfg.headers then
        [("headers", PyVal.pyStr (headersDimStr (cfg.headers.getD []) r2.headers))] else []) := by
    cases hc : headersTruthy cfg.headers
    · rfl
    · simp [headersDimStr_congr (cfg.headers.getD []) h5]
  have e6 : (if cfg.session then
        [("session", PyVal.pyStr (sessionDimStr r1.session))] else []) =
      (if cfg.session then
        [("session", PyVal.pyStr (sessionDimStr r2.session))] else []) := by
    cases hc : cfg.session
    · rfl
    · simp [sessionDimStr_congr (h6 hc)]
  have e7 : (if cfg.content_type then [("content_type", optStrToPy r1.content_type)] else []) =
      (if cfg.content_type then [("content_type", optStrToPy r2.content_type)] else []) := by
    cases hc : cfg.content_type
    · rfl
    · simp [h7 hc]
  have e8 : (if cfg.content_length then
        [("content_length", match r1.content_length with
          | none => PyVal.pyNone
          | some n => PyVal.pyInt n)] else []) =
      (if cfg.content_length then
        [("content_length", match r2.content_length with
          | none => PyVal.pyNone
          | some n => PyVal.pyInt n)] else []) := by
    cases hc : cfg.content_length
    · rfl
    · simp [h8 hc]
  have e9 : (if cfg.remote_addr then
        [("remote_addr", optStrToPy (requestRemoteAddr r1.headers r1.remote_addr))] else []) =
      (if cfg.remote_addr then
        [("remote_addr", optStrToPy (requestRemoteAddr r2.headers r2.remote_addr))] else []) := by
    cases hc : cfg.remote_addr
    · rfl
    · simp [h9 hc]
  rw [e1, e2, e3, e4, e5, e6, e7, e8, e9]

/-- C6: for every hash, every configuration and all requests that agree on
every enabled dimension, the generated keys are equal; in particular a
change confined to a disabled dimension, or a reordering of the header or
session items, never changes the key. -/
theorem C6_keyfunc_ignores_disabled_dimensions (sha1hex : String → String)
    (cfg : KeyfuncConfig) (r1 r2 : Request) (h : AgreesOnEnabled cfg r1 r2) :
    keyfunc sha1hex cfg r1 = keyfunc sha1hex cfg r2 := by
  unfold keyfunc originKey
  rw [dims_eq_of_agrees cfg r1 r2 h]

theorem C6_witness :
    (AgreesOnEnabled ⟨true, true, true, true, some ["X-Token"], true, true, true, false, true⟩
      ⟨"/u", "PUT", "a=1", some "body", [("X-Token", "t"), ("X-Forwarded-For", "1.1.1.1")],
        [("a", "1"), ("b", "2")], some "application/json", some 4, some "10.0.0.1"⟩
      ⟨"/u", "PUT", "a=1", some "body", [("X-Token", "t"), ("X-Forwarded-For", "2.2.2.2")],
        [("b", "2"), ("a", "1")], some "application/json", some 4, some "10.0.0.1"⟩) ∧
    (keyfunc (fun s => s)
      ⟨true, true, true, true, some ["X-Token"], true, true, true, false, true⟩
      ⟨"/u", "PUT", "a=1", some "body", [("X-Token", "t"), ("X-Forwarded-For", "1.1.1.1")],
        [("a", "1"), ("b", "2")], some "application/json", some 4, some "10.0.0.1"⟩ =
     keyfunc (fun s => s)
      ⟨true, true, true, true, some ["X-Token"], true, true, true, false, true⟩
      ⟨"/u", "PUT", "a=1", some "body", [("X-Token", "t"), ("X-Forwarded-For", "2.2.2.2")],
        [("b", "2"), ("a", "1")], some "application/json", some 4, some "10.0.0.1"⟩) :=
  ⟨by decide,
   C6_keyfunc_ignores_disabled_dimensions (fun s => s)
     ⟨true, true, true, true, some ["X-Token"], true, true, true, false, true⟩
     ⟨"/u", "PUT", "a=1", some "body", [("X-Token", "t"), ("X-Forwarded-For", "1.1.1.1")],
       [("a", "1"), ("b", "2")], some "application/json", some 4, some "10.0.0.1"⟩
     ⟨"/u", "PUT", "a=1", some "body", [("X-Token", "t"), ("X-Forwarded-For", "2.2.2.2")],
       [("b", "2"), ("a", "1")], some "application/json", some 4, some "10.0.0.1"⟩
     (by decide)⟩

/-! Part 11: claim C7, absent versus present-but-empty dimension values. -/

/-- C7 counterexample: with the body-data dimension enabled, a request with
no body and the same request with a present empty body generate the same
key, because flask request.data reads as the empty byte string in both
cases; "field present but empty" collides with "field absent" for the data
dimension. -/
theorem C7_counterexample_empty_body_collides :
    ((⟨"/u", "PUT", "", none, [], [], none, none, none⟩ : Request).data = none) ∧
    ((⟨"/u", "PUT", "", some "", [], [], none, none, none⟩ : Request).data = some "") ∧
    (({ use_checksum := false } : KeyfuncConfig).data = true) ∧
    (keyfunc (fun s => s) { use_checksum := false }
        ⟨"/u", "PUT", "", none, [], [], none, none, none⟩ =
      keyfunc (fun s => s) { use_checksum := false }
        ⟨"/u", "PUT", "", some "", [], [], none, none, none⟩) :=
  ⟨rfl, rfl, rfl, rfl⟩

/-- Two item lists with the same names in the same order and the same values
except at one position, where the rendered values differ. -/
inductive DiffOne : List (String × PyVal) → List (String × PyVal) → Prop where
  | here (n : String) (v1 v2 : PyVal) (t : List (String × PyVal)) :
      pyRepr v1 ≠ pyRepr v2 → DiffOne ((n, v1) :: t) ((n, v2) :: t)
  | there (p : String × PyVal) (t1 t2 : List (String × PyVal)) :
      DiffOne t1 t2 → DiffOne (p :: t1) (p :: t2)

theorem pyReprGo_ne_of_diffone : ∀ {l1 l2 : List (String × PyVal)},
    DiffOne l1 l2 → pyReprGo l1 ≠ pyReprGo l2 := by
  intro l1 l2 hd
  induction hd with
  | here n v1 v2 t hne =>
      cases t with
      | nil =>
          intro h
          apply hne
          apply string_eq_of_data
          have hdata := congrArg String.data h
          simp only [pyReprGo, pyReprPair, String.data_append, List.append_assoc] at hdata
          exact List.append_cancel_right
            (List.append_cancel_left (List.append_cancel_left
              (List.append_cancel_left hdata)))
      | cons q t' =>
          intro h
          apply hne
          apply string_eq_of_data
          have hdata := congrArg String.data h
          simp only [pyReprGo, pyReprPair, String.data_append, List.append_assoc] at hdata
          exact List.append_cancel_right
            (List.append_cancel_left (List.append_cancel_left
              (List.append_cancel_left hdata)))
  | there p t1 t2 hd1 ih =>
      obtain ⟨a, t1', rfl⟩ : ∃ a t1', t1 = a :: t1' := by
        cases hd1 <;> exact ⟨_, _, rfl⟩
      obtain ⟨b, t2', rfl⟩ : ∃ b t2', t2 = b :: t2' := by
        cases hd1 <;> exact ⟨_, _, rfl⟩
      intro h
      apply ih
      apply string_eq_of_data
      have hdata := congrArg String.data h
      simp only [pyReprGo, pyReprPair, String.data_append, List.append_assoc] at hdata
      exact List.append_cancel_left (List.append_cancel_left (List.append_cancel_left
        (List.append_cancel_left (List.append_cancel_left
          (List.append_cancel_left hdata)))))

theorem pyReprList_ne_of_diffone {l1 l2 : List (String × PyVal)}
    (hd : DiffOne l1 l2) : pyReprList l1 ≠ pyReprList l2 := by
  intro h
  apply pyReprGo_ne_of_diffone hd
  apply string_eq_of_data
  have hdata := congrArg String.data h
  simp only [pyReprList, String.data_append, List.append_assoc] at hdata
  exact List.append_cancel_right (List.append_cancel_left hdata)

theorem pyRepr_none_ne_str (s : String) : pyRepr PyVal.pyNone ≠ pyRepr (.pyStr s) := by
  intro h
  have hdata : ['N', 'o', 'n', 'e'] = qc :: ((escapeStr s).data ++ [qc]) :=
    congrArg String.data h
  injection hdata with h1 _
  exact absurd h1 (by decide)

theorem digitChar_ne_N : ∀ k < 10, Nat.digitChar k ≠ 'N' := by decide

theorem natReprCharsAux_no_N : ∀ (fuel n : Nat), 'N' ∉ natReprCharsAux fuel n
  | 0, n => by simp [natReprCharsAux]
  | fuel + 1, n => by
      intro hmem
      simp only [natReprCharsAux] at hmem
      by_cases h : n < 10
      · rw [if_pos h] at hmem
        simp only [List.mem_singleton] at hmem
        exact digitChar_ne_N n h hmem.symm
      · rw [if_neg h] at hmem
        rcases List.mem_append.mp hmem with hm | hm
        · exact natReprCharsAux_no_N fuel (n / 10) hm
        · simp only [List.mem_singleton] at hm
          exact digitChar_ne_N (n % 10) (Nat.mod_lt _ (by omega)) hm.symm

theorem pyRepr_none_ne_int (m : Nat) : pyRepr PyVal.pyNone ≠ pyRepr (.pyInt m) := by
  intro h
  have hdata : ['N', 'o', 'n', 'e'] = natReprChars m := congrArg String.data h
  have hmem : 'N' ∈ natReprChars m :=
    hdata ▸ (by decide : 'N' ∈ (['N', 'o', 'n', 'e'] : List Char))
  exact natReprCharsAux_no_N (m + 1) m hmem

theorem escapeChar_ne_nil (c : Char) : escapeChar c ≠ [] := by
  unfold escapeChar
  split <;> simp

theorem escListAux_inj : ∀ {as bs : List Char}, escListAux as = escListAux bs → as = bs
  | [], [], _ => rfl
  | [], b :: bs, h => by
      simp only [escListAux] at h
      rcases hcb : escapeChar b with _ | ⟨c, t⟩
      · exact absurd hcb (escapeChar_ne_nil b)
      · rw [hcb] at h
        cases h
  | a :: as, [], h => by
      simp only [escListAux] at h
      rcases hca : escapeChar a with _ | ⟨c, t⟩
      · exact absurd hca (escapeChar_ne_nil a)
      · rw [hca] at h
        cases h
  | a :: as, b :: bs, h => by
      simp only [escListAux] at h
      by_cases ha : a = bsl ∨ a = qc <;> by_cases hb : b = bsl ∨ b = qc
      · simp only [escapeChar, if_pos ha, if_pos hb] at h
        injection h with h1 h2
        injection h2 with h3 h4
        rw [h3, escListAux_inj h4]
      · simp only [escapeChar, if_pos ha, if_neg hb] at h
        injection h with h1 h2
        exact absurd (Or.inl h1.symm) hb
      · simp only [escapeChar, if_neg ha, if_pos hb] at h
        injection h with h1 h2
        exact absurd (Or.inl h1) ha
      · simp only [escapeChar, if_neg ha, if_neg hb] at h
        injection h with h1 h2
        rw [h1, escListAux_inj h2]

theorem escapeStr_inj {s1 s2 : String} (h : escapeStr s1 = escapeStr s2) : s1 = s2 := by
  have h2 : escListAux s1.data = escListAux s2.data := congrArg String.data h
  exact string_eq_of_data (escListAux_inj h2)

theorem pyRepr_pyStr_inj {s1 s2 : String}
    (h : pyRepr (.pyStr s1) = pyRepr (.pyStr s2)) : s1 = s2 := by
  have hdata : qc :: ((escapeStr s1).data ++ [qc]) =
      qc :: ((escapeStr s2).data ++ [qc]) := congrArg String.data h
  injection hdata with _ h2
  exact escapeStr_inj (string_eq_of_data (List.append_cancel_right h2))

/-- The gen_keyfunc configuration used in the C7 amended statement: every
default dimension enabled, one named header, raw origin keys. -/
def cfgHdr : KeyfuncConfig := { headers := some ["X-Token"], use_checksum := false }

theorem sortDims_dims_cfgHdr (p m q : String) (d : Option String)
    (hs ss : List (String × String)) (ct : Option String) (cl : Option Nat)
    (ra : Option String) :
    sortDims (dims cfgHdr ⟨p, m, q, d, hs, ss, ct, cl, ra⟩) =
      [("content_length", match cl with
          | none => PyVal.pyNone
          | some n => PyVal.pyInt n),
       ("content_type", optStrToPy ct),
       ("data", PyVal.pyBytes (d.getD "")),
       ("headers", PyVal.pyStr (headersDimStr ["X-Token"] hs)),
       ("method", PyVal.pyStr m),
       ("path", PyVal.pyStr p),
       ("query_string", PyVal.pyBytes q),
       ("remote_addr", optStrToPy (requestRemoteAddr hs ra)),
       ("session", PyVal.pyStr (sessionDimStr ss))] := rfl

/-- C7 amended: for the content-type, content-length and named-header
dimensions, an absent value canonicalizes to the Python None sentinel, whose
rendering differs from that of every present value, so the origin keys of
two otherwise identical requests, one with the dimension absent and one with
it present (in particular present but empty), always differ; the body-data
dimension is excluded, since an absent body collides with a present empty
body (the C7 counterexample). Stated over the configuration with all
dimensions enabled, the named header X-Token, and raw keys. -/
theorem C7_amended_absent_sentinel_distinct :
    (∀ (p m q : String) (d : Option String) (hs ss : List (String × String))
        (cl : Option Nat) (ra : Option String) (s : String),
      keyfunc (fun x => x) cfgHdr ⟨p, m, q, d, hs, ss, none, cl, ra⟩ ≠
      keyfunc (fun x => x) cfgHdr ⟨p, m, q, d, hs, ss, some s, cl, ra⟩) ∧
    (∀ (p m q : String) (d : Option String) (hs ss : List (String × String))
        (ct : Option String) (ra : Option String) (n : Nat),
      keyfunc (fun x => x) cfgHdr ⟨p, m, q, d, hs, ss, ct, none, ra⟩ ≠
      keyfunc (fun x => x) cfgHdr ⟨p, m, q, d, hs, ss, ct, some n, ra⟩) ∧
    (∀ (p m q : String) (d : Option String) (hs ss : List (String × String))
        (ct : Option String) (cl : Option Nat) (ra : Option String) (s : String),
      headerGet hs "X-Token" = none →
      keyfunc (fun x => x) cfgHdr ⟨p, m, q, d, hs, ss, ct, cl, ra⟩ ≠
      keyfunc (fun x => x) cfgHdr ⟨p, m, q, d, ("X-Token", s) :: hs, ss, ct, cl, ra⟩) := by
  refine ⟨?_, ?_, ?_⟩
  · intro p m q d hs ss cl ra s h
    have h2 : pyReprList (sortDims (dims cfgHdr ⟨p, m, q, d, hs, ss, none, cl, ra⟩)) =
        pyReprList (sortDims (dims cfgHdr ⟨p, m, q, d, hs, ss, some s, cl, ra⟩)) := h
    rw [sortDims_dims_cfgHdr, sortDims_dims_cfgHdr] at h2
    exact pyReprList_ne_of_diffone
      (DiffOne.there _ _ _ (DiffOne.here "content_type" PyVal.pyNone (PyVal.pyStr s) _
        (pyRepr_none_ne_str s))) h2
  · intro p m q d hs ss ct ra n h
    have h2 : pyReprList (sortDims (dims cfgHdr ⟨p, m, q, d, hs, ss, ct, none, ra⟩)) =
        pyReprList (sortDims (dims cfgHdr ⟨p, m, q, d, hs, ss, ct, some n, ra⟩)) := h
    rw [sortDims_dims_cfgHdr, sortDims_dims_cfgHdr] at h2
    exact pyReprList_ne_of_diffone
      (DiffOne.here "content_length" PyVal.pyNone (PyVal.pyInt n) _
        (pyRepr_none_ne_int n)) h2
  · intro p m q d hs ss ct cl ra s hX h
    have h2 : pyReprList (sortDims (dims cfgHdr ⟨p, m, q, d, hs, ss, ct, cl, ra⟩)) =
        pyReprList (sortDims (dims cfgHdr
          ⟨p, m, q, d, ("X-Token", s) :: hs, ss, ct, cl, ra⟩)) := h
    rw [sortDims_dims_cfgHdr, sortDims_dims_cfgHdr] at h2
    refine pyReprList_ne_of_diffone
      (DiffOne.there _ _ _ (DiffOne.there _ _ _ (DiffOne.there _ _ _
        (DiffOne.here "headers"
          (PyVal.pyStr (headersDimStr ["X-Token"] hs))
          (PyVal.pyStr (headersDimStr ["X-Token"] (("X-Token", s) :: hs))) _ ?_)))) h2
    intro he
    have h3 := pyRepr_pyStr_inj he
    have h4 : pyReprList [("X-Token", optStrToPy (headerGet hs "X-Token"))] =
        pyReprList [("X-Token", PyVal.pyStr s)] := h3
    rw [hX] at h4
    exact pyReprList_ne_of_diffone
      (DiffOne.here "X-Token" PyVal.pyNone (PyVal.pyStr s) []
        (pyRepr_none_ne_str s)) h4

theorem C7_witness :
    (headerGet [] "X-Token" = none) ∧
    (keyfunc (fun x => x) cfgHdr ⟨"/u", "PUT", "", none, [], [], none, none, none⟩ ≠
     keyfunc (fun x => x) cfgHdr
       ⟨"/u", "PUT", "", none, [("X-Token", "")], [], none, none, none⟩) :=
  ⟨rfl, C7_amended_absent_sentinel_distinct.2.2 "/u" "PUT" "" none [] [] none none
    none "" rfl⟩

end FlaskIdempotent2
